import Mathlib

/-
Shallow embedding of the processing core of `excel_merger_app.py`
(class `DataProcessor`): part-prefix extraction, warehouse-type
classification, column-letter resolution, per-file aggregation and
summary-table assembly.  Python strings are Lean `String`s, Python
`dict`s are association lists, Python `set`s are duplicate-free lists,
and a spreadsheet row is a `List (Option String)` (a cell is `none`
when openpyxl yields `None`).  Python string primitives (`strip`,
`upper`, `in`, `split`, `startswith`, sequence indexing) are modelled
explicitly below over `String.data`, restricted to ASCII where Python
is Unicode-aware; no input used in this development leaves ASCII.
-/

/-- Python's default whitespace set for `str.strip()` (ASCII part). -/
def pyIsSpace (c : Char) : Bool :=
  c = ' ' || c = '\t' || c = '\n' || c = '\r' || c = '\x0b' || c = '\x0c'

/-- Python `s.strip()`: remove leading and trailing whitespace. -/
def pyStrip (s : String) : String :=
  String.mk (((s.data.dropWhile pyIsSpace).reverse.dropWhile pyIsSpace).reverse)

/-- Python `s.upper()`, ASCII letters only (matches `Char.toUpper`). -/
def pyUpper (s : String) : String :=
  String.mk (s.data.map Char.toUpper)

/-- Python `c in s` for a single character `c`. -/
def pyContainsChar (s : String) (c : Char) : Bool :=
  s.data.contains c

/-- Python `s.split(sep)[0]`: the part of `s` before the first `sep`
(the whole of `s` when `sep` does not occur). -/
def pySplitHead (s : String) (sep : Char) : String :=
  String.mk (s.data.takeWhile (fun c => c ≠ sep))

/-- Python `s.startswith(p)`. -/
def pyStartsWith (s p : String) : Bool :=
  List.isPrefixOf p.data s.data

/-- Python sequence indexing `xs[i]`: negative indices count from the
end; an out-of-range access is `none` (Python raises `IndexError`). -/
def pyGet {α : Type} (xs : List α) (i : Int) : Option α :=
  if 0 ≤ i then xs.get? i.toNat
  else if -i ≤ (xs.length : Int) then xs.get? (xs.length - (-i).toNat) else none

/-- `DataProcessor.get_part_prefix`: `None` for the empty string;
otherwise the trimmed input, cut at the first underscore when one is
present, uppercased. -/
def get_part_prefix (part_number : String) : Option String :=
  if part_number = "" then none
  else if pyContainsChar (pyStrip part_number) '_' then
    some (pyUpper (pySplitHead (pyStrip part_number) '_'))
  else some (pyUpper (pyStrip part_number))

/-- `DataProcessor.get_warehouse_type`: `None` for the empty string;
otherwise the first label of `row_labels` whose uppercase form is a
prefix of the trimmed, uppercased identifier. -/
def get_warehouse_type (part_number : String) (row_labels : List String) : Option String :=
  if part_number = "" then none
  else
    row_labels.find? (fun label => pyStartsWith (pyUpper (pyStrip part_number)) (pyUpper label))

/-- `DataProcessor.column_letter_to_index`: base-26 accumulation of
`ord(char.upper()) - ord('A') + 1` over the characters of `letter`.
The Python code never raises here, so the result is a plain integer
(possibly `0` or negative for inputs that are not column letters). -/
def column_letter_to_index (letter : String) : Int :=
  letter.data.foldl
    (fun result char => result * 26 + (((Char.toUpper char).toNat : Int) - 65 + 1)) 0

/-- The `mapping` dictionary of a `SourceFile`: the four column
letters, an unconfigured entry being the empty string. -/
structure Mapping where
  vendorColumn : String
  statusColumn : String
  partNumberColumn : String
  dataColumn : String

/-- The fields of a `ColumnFilter` used by the processing core. -/
structure ColumnFilter where
  source_file_id : String
  vendor_name : String
  status_value : String
  column_name : String
  extract_data : Bool

/-- Lookup in a Python `dict` modelled as an association list. -/
def dictGet? {α β : Type} [DecidableEq α] (k : α) : List (α × β) → Option β
  | [] => none
  | (k', v) :: rest => if k' = k then some v else dictGet? k rest

/-- `defaultdict`-style update: apply `f` to the entry at `k`,
creating it from the default `d` when absent. -/
def dictUpdate {α β : Type} [DecidableEq α] (k : α) (f : β → β) (d : β) :
    List (α × β) → List (α × β)
  | [] => [(k, f d)]
  | (k', v) :: rest =>
    if k' = k then (k', f v) :: rest else (k', v) :: dictUpdate k f d rest

/-- Python `set.add` on a set modelled as a duplicate-free list. -/
def setAdd (x : String) (s : List String) : List String :=
  if s.contains x then s else s ++ [x]

/-- A per-source aggregate: `(vendor, status) -> warehouse type -> set
of part prefixes`, as built by `DataProcessor.process_file`. -/
abbrev Agg := List ((String × String) × List (String × List String))

/-- The `processed_data` dictionary: source-file id to aggregate. -/
abbrev ProcessedData := List (String × Agg)

/-- `result[(vendor, status)][wh_type].add(pre)` on nested
defaultdicts of sets. -/
def aggAdd (key : String × String) (wh : String) (tok : String) (agg : Agg) : Agg :=
  dictUpdate key (fun m => dictUpdate wh (fun s => setAdd tok s) [] m) [] agg

/-- The field-extraction part of one iteration of the row loop of
`DataProcessor.process_file` (lines 250-255): read the three mapped
cells — an `IndexError`, i.e. an out-of-range access, yields `none` —
convert each with `str(cell or "").strip()`, and yield `none` when
any of the three fields is empty. -/
def resolve_row (vendor_col status_col part_col : Int) (row : List (Option String)) :
    Option (String × String × String) :=
  match pyGet row (vendor_col - 1), pyGet row (status_col - 1), pyGet row (part_col - 1) with
  | some v, some st, some p =>
    let vendor := pyStrip (v.getD "")
    let status := pyStrip (st.getD "")
    let part_number := pyStrip (p.getD "")
    if vendor = "" ∨ status = "" ∨ part_number = "" then none
    else some (vendor, status, part_number)
  | _, _, _ => none

/-- One iteration of the row loop of `DataProcessor.process_file`
(lines 249-265): a row that does not resolve is skipped; otherwise the
identifier is classified and its prefix extracted, each result passing
the Python truthiness guards `if wh_type:` and `if prefix:` — `None`
and the empty string both skip the row — before the prefix is added to
the set at `result[(vendor, status)][wh_type]`.  The progress callback
is advisory and not modelled. -/
def process_row (vendor_col status_col part_col : Int) (row_labels : List String)
    (acc : Agg) (row : List (Option String)) : Agg :=
  match resolve_row vendor_col status_col part_col row with
  | some (vendor, status, part_number) =>
    match get_warehouse_type part_number row_labels with
    | some wh_type =>
      if wh_type = "" then acc
      else
        match get_part_prefix part_number with
        | some pre =>
          if pre = "" then acc
          else aggAdd (vendor, status) wh_type pre acc
        | none => acc
    | none => acc
  | none => acc

/-- `DataProcessor.process_file` on the already-streamed data rows
(the workbook I/O, the skipped header row and the progress callback
are outside the core): an unconfigured mapping yields the empty
aggregate at once, otherwise the rows are folded left to right. -/
def process_file (mapping : Mapping) (row_labels : List String)
    (rows : List (List (Option String))) : Agg :=
  if mapping.vendorColumn = "" ∨ mapping.statusColumn = "" ∨ mapping.partNumberColumn = "" then []
  else
    rows.foldl
      (process_row (column_letter_to_index mapping.vendorColumn)
        (column_letter_to_index mapping.statusColumn)
        (column_letter_to_index mapping.partNumberColumn) row_labels)
      []

/-- A written cell of the summary sheet: a text cell, a numeric cell,
or the formula `=SUM(Llo:Lhi)` where `L` is the letter of `col`
(represented structurally by the column index and the row range). -/
inductive CellValue
  | s (v : String)
  | n (v : Nat)
  | formulaSum (col lo hi : Nat)

/-- The count written by `DataProcessor.create_summary_excel` into one
data cell: the size of the token set for the filter's source and
`(vendor, status)` key at `label`, `0` when the key or the label is
absent. -/
def summary_cell (processed_data : ProcessedData) (f : ColumnFilter) (label : String) : Nat :=
  match dictGet? (f.vendor_name, f.status_value)
      ((dictGet? f.source_file_id processed_data).getD []) with
  | some by_label =>
    match dictGet? label by_label with
    | some toks => toks.length
    | none => 0
  | none => 0

/-- The grid of cells written by `DataProcessor.create_summary_excel`
(styling and persistence elided): row 1 holds the header, rows `2`
through `row_labels.length + 1` one data row per label, and row
`row_labels.length + 2` the totals row whose filter columns carry the
`=SUM` formula over that column's data-row range. -/
def create_summary_grid (row_labels : List String) (column_filters : List ColumnFilter)
    (processed_data : ProcessedData) (r c : Nat) : Option CellValue :=
  if r = 1 then
    if c = 1 then some (CellValue.s "Тип склада")
    else if 2 ≤ c then (column_filters.get? (c - 2)).map (fun f => CellValue.s f.column_name)
    else none
  else if 2 ≤ r ∧ r ≤ row_labels.length + 1 then
    (row_labels.get? (r - 2)).bind (fun label =>
      if c = 1 then some (CellValue.s label)
      else if 2 ≤ c then
        (column_filters.get? (c - 2)).map
          (fun f => CellValue.n (summary_cell processed_data f label))
      else none)
  else if r = row_labels.length + 2 then
    if c = 1 then some (CellValue.s "ИТОГО")
    else if 2 ≤ c ∧ c ≤ column_filters.length + 1 then
      some (CellValue.formulaSum c 2 (row_labels.length + 1))
    else none
  else none

/-- The number carried by a cell (`0` for text, formulas or blanks),
as Excel's `SUM` reads a cell. -/
def cellNum : Option CellValue → Nat
  | some (CellValue.n v) => v
  | _ => 0

/-- The value denoted by the formula `=SUM(Llo:Lhi)` over a sheet `g`,
`L` being the letter of column `col`: the sum of the numbers in the
cells of column `col`, rows `lo` through `hi`. -/
def sumFormulaValue (g : Nat → Nat → Option CellValue) (col lo hi : Nat) : Nat :=
  ((List.range (hi + 1 - lo)).map (fun k => cellNum (g (lo + k) col))).sum

/-- Modelled from the spec's words, for comparison with
`get_warehouse_type`: the first label in caller order whose uppercased
form is a prefix of the already trimmed and uppercased identifier. -/
def classifyFirst (u : String) : List String → Option String
  | [] => none
  | label :: rest => if pyStartsWith u (pyUpper label) then some label else classifyFirst u rest

/-- ASCII alphabetic character, stated over code points. -/
def asciiAlpha (c : Char) : Bool :=
  decide ((65 ≤ c.toNat ∧ c.toNat ≤ 90) ∨ (97 ≤ c.toNat ∧ c.toNat ≤ 122))

example : pyStrip "  a b " = "a b" := by decide
example : get_part_prefix "LL_100" = some "LL" := by decide
example : get_part_prefix " " = some "" := by decide
example : get_part_prefix "ab_c" = some "AB" := by decide
example : get_warehouse_type "LL123" ["L", "LL"] = some "L" := by decide
example : column_letter_to_index "AA" = 27 := by decide
example : column_letter_to_index "A1" = 11 := by decide
example : column_letter_to_index "" = 0 := by decide
example : pyGet ["a", "b"] (-1) = some "b" := by decide
example : pyGet ["a"] 4 = none := by decide
example :
    process_file ⟨"A", "B", "C", ""⟩ ["LL"]
      [[some "V1", some "1", some "LL_100"], [some "V1", some "1", some "LL_100"]]
      = [(("V1", "1"), [("LL", ["LL"])])] := by decide

example : process_file ⟨"A", "B", "C", ""⟩ [""] [[some "V", some "1", some "X"]] = [] := by
  decide

example : process_file ⟨"A", "B", "C", ""⟩ ["_A"] [[some "V", some "1", some "_A"]] = [] := by
  decide

theorem char_toNat_ofNat (n : Nat) (h : n.isValidChar) : (Char.ofNat n).toNat = n := by
  rw [Char.ofNat, dif_pos h]
  rfl

theorem toUpper_toNat (c : Char) :
    (Char.toUpper c).toNat = if 97 ≤ c.toNat ∧ c.toNat ≤ 122 then c.toNat - 32 else c.toNat := by
  unfold Char.toUpper
  by_cases h : 97 ≤ c.toNat ∧ c.toNat ≤ 122
  · rw [if_pos ⟨h.1, h.2⟩, if_pos h]
    exact char_toNat_ofNat _ (Or.inl (by omega))
  · rw [if_neg ?hc, if_neg h]
    intro hc
    exact h ⟨hc.1, hc.2⟩

theorem char_toNat_inj {c d : Char} (h : c.toNat = d.toNat) : c = d :=
  Char.ext (UInt32.ext h)

theorem toUpper_ne_underscore {c : Char} (h : c ≠ '_') : Char.toUpper c ≠ '_' := by
  intro he
  have hn := congrArg Char.toNat he
  rw [toUpper_toNat] at hn
  by_cases hr : 97 ≤ c.toNat ∧ c.toNat ≤ 122
  · rw [if_pos hr] at hn
    have : ('_' : Char).toNat = 95 := by decide
    omega
  · rw [if_neg hr] at hn
    exact h (char_toNat_inj hn)

theorem toUpper_idem (c : Char) : Char.toUpper (Char.toUpper c) = Char.toUpper c := by
  apply char_toNat_inj
  rw [toUpper_toNat (Char.toUpper c), toUpper_toNat c]
  by_cases hr : 97 ≤ c.toNat ∧ c.toNat ≤ 122
  · rw [if_pos hr, if_neg (by omega)]
  · rw [if_neg hr, if_neg hr]

theorem toUpper_range_of_alpha {c : Char}
    (h : (65 ≤ c.toNat ∧ c.toNat ≤ 90) ∨ (97 ≤ c.toNat ∧ c.toNat ≤ 122)) :
    65 ≤ (Char.toUpper c).toNat ∧ (Char.toUpper c).toNat ≤ 90 := by
  rw [toUpper_toNat]
  rcases h with h | h
  · rw [if_neg (by omega)]
    omega
  · rw [if_pos h]
    omega

theorem setAdd_contains (x : String) (s : List String) : (setAdd x s).contains x = true := by
  unfold setAdd
  by_cases h : s.contains x
  · rw [if_pos h]
    exact h
  · rw [if_neg h]
    simp [List.contains, List.elem_eq_mem]

theorem setAdd_idem (x : String) (s : List String) : setAdd x (setAdd x s) = setAdd x s := by
  have h := setAdd_contains x s
  generalize hs : setAdd x s = t at h ⊢
  unfold setAdd
  rw [if_pos h]

theorem contains_eq_false_iff (l : List Char) (c : Char) :
    l.contains c = false ↔ ∀ x ∈ l, x ≠ c := by
  simp only [List.contains, List.elem_eq_mem, decide_eq_false_iff_not]
  constructor
  · intro h x hx he
    exact h (he ▸ hx)
  · intro h hc
    exact h c hc rfl

theorem dictUpdate_idem {α β : Type} [DecidableEq α] (k : α) (f : β → β) (d : β)
    (hf : ∀ v, f (f v) = f v) : ∀ l : List (α × β),
    dictUpdate k f d (dictUpdate k f d l) = dictUpdate k f d l
  | [] => by simp [dictUpdate, hf]
  | (k', v) :: rest => by
    by_cases h : k' = k
    · simp only [dictUpdate, if_pos h, hf]
    · simp only [dictUpdate, if_neg h, dictUpdate_idem k f d hf rest]

theorem aggAdd_idem (key : String × String) (wh tok : String) (agg : Agg) :
    aggAdd key wh tok (aggAdd key wh tok agg) = aggAdd key wh tok agg :=
  dictUpdate_idem key _ [] (fun m => dictUpdate_idem wh _ [] (setAdd_idem tok) m) agg

theorem find?_eq_classifyFirst (u : String) : ∀ row_labels : List String,
    List.find? (fun label => pyStartsWith u (pyUpper label)) row_labels = classifyFirst u row_labels
  | [] => rfl
  | label :: rest => by
    by_cases h : pyStartsWith u (pyUpper label) = true
    · rw [@List.find?_cons_of_pos _ (fun label => pyStartsWith u (pyUpper label)) label rest h,
        classifyFirst, if_pos h]
    · rw [@List.find?_cons_of_neg _ (fun label => pyStartsWith u (pyUpper label)) label rest h,
        classifyFirst, if_neg h, find?_eq_classifyFirst u rest]

theorem pyGet_oob {α : Type} (xs : List α) (col : Int) (h : (xs.length : Int) < col) :
    pyGet xs (col - 1) = none := by
  unfold pyGet
  rw [if_pos (by omega)]
  rw [List.get?_eq_none]
  omega

theorem resolve_row_oob (vc sc pc : Int) (row : List (Option String))
    (h : (row.length : Int) < vc ∨ (row.length : Int) < sc ∨ (row.length : Int) < pc) :
    resolve_row vc sc pc row = none := by
  unfold resolve_row
  rcases h with h | h | h
  · rw [pyGet_oob row vc h]
  · cases g1 : pyGet row (vc - 1)
    · rfl
    · rw [pyGet_oob row sc h]
  · cases g1 : pyGet row (vc - 1)
    · rfl
    · cases g2 : pyGet row (sc - 1)
      · rfl
      · rw [pyGet_oob row pc h]

theorem process_row_of_resolve_none (vc sc pc : Int) (row_labels : List String) (acc : Agg)
    (row : List (Option String)) (h : resolve_row vc sc pc row = none) :
    process_row vc sc pc row_labels acc row = acc := by
  unfold process_row
  rw [h]

theorem process_row_cases (vc sc pc : Int) (row_labels : List String)
    (row : List (Option String)) :
    (∀ acc, process_row vc sc pc row_labels acc row = acc)
    ∨ ∃ key wh tok, ∀ acc,
        process_row vc sc pc row_labels acc row = aggAdd key wh tok acc := by
  cases hr : resolve_row vc sc pc row with
  | none => exact Or.inl fun acc => process_row_of_resolve_none vc sc pc row_labels acc row hr
  | some t =>
    rcases t with ⟨vendor, status, part_number⟩
    have hred : ∀ acc, process_row vc sc pc row_labels acc row
        = (match get_warehouse_type part_number row_labels with
          | some wh_type =>
            if wh_type = "" then acc
            else
              match get_part_prefix part_number with
              | some pre =>
                if pre = "" then acc
                else aggAdd (vendor, status) wh_type pre acc
              | none => acc
          | none => acc) := by
      intro acc
      unfold process_row
      rw [hr]
    cases hw : get_warehouse_type part_number row_labels with
    | none =>
      refine Or.inl fun acc => ?_
      rw [hred, hw]
    | some wh_type =>
      have hred2 : ∀ acc, process_row vc sc pc row_labels acc row
          = (if wh_type = "" then acc
            else
              match get_part_prefix part_number with
              | some pre =>
                if pre = "" then acc
                else aggAdd (vendor, status) wh_type pre acc
              | none => acc) := by
        intro acc
        rw [hred, hw]
      by_cases hwe : wh_type = ""
      · refine Or.inl fun acc => ?_
        rw [hred2, if_pos hwe]
      · cases hp : get_part_prefix part_number with
        | none =>
          refine Or.inl fun acc => ?_
          rw [hred2, if_neg hwe, hp]
        | some pre =>
          have hred3 : ∀ acc, process_row vc sc pc row_labels acc row
              = (if pre = "" then acc
                else aggAdd (vendor, status) wh_type pre acc) := by
            intro acc
            rw [hred2, if_neg hwe, hp]
          by_cases hpe : pre = ""
          · refine Or.inl fun acc => ?_
            rw [hred3, if_pos hpe]
          · refine Or.inr ⟨(vendor, status), wh_type, pre, fun acc => ?_⟩
            rw [hred3, if_neg hpe]

theorem process_row_idem (vc sc pc : Int) (row_labels : List String) (acc : Agg)
    (row : List (Option String)) :
    process_row vc sc pc row_labels (process_row vc sc pc row_labels acc row) row
      = process_row vc sc pc row_labels acc row := by
  rcases process_row_cases vc sc pc row_labels row with h | ⟨key, wh, tok, h⟩
  · rw [h, h]
  · rw [h, h, aggAdd_idem]

theorem grid_data_cell (row_labels : List String) (column_filters : List ColumnFilter)
    (processed_data : ProcessedData) (i j : Nat) (label : String) (f : ColumnFilter)
    (hi : row_labels.get? i = some label) (hj : column_filters.get? j = some f) :
    create_summary_grid row_labels column_filters processed_data (i + 2) (j + 2)
      = some (CellValue.n (summary_cell processed_data f label)) := by
  have hil : i < row_labels.length := by
    rcases List.get?_eq_some.mp hi with ⟨h, _⟩
    exact h
  unfold create_summary_grid
  rw [if_neg (by omega), if_pos ⟨by omega, by omega⟩]
  have h2 : i + 2 - 2 = i := by omega
  have h3 : j + 2 - 2 = j := by omega
  rw [h2, hi]
  simp only [Option.some_bind]
  rw [if_neg (by omega), if_pos (by omega), h3, hj]
  rfl

theorem pyUpper_idem (s : String) : pyUpper (pyUpper s) = pyUpper s := by
  unfold pyUpper
  apply congrArg String.mk
  show List.map Char.toUpper (List.map Char.toUpper s.data) = List.map Char.toUpper s.data
  rw [List.map_map]
  apply List.map_congr_left
  intro a _
  exact toUpper_idem a

theorem splitHead_free (x : String) (sep : Char) :
    pyContainsChar (pySplitHead x sep) sep = false := by
  unfold pyContainsChar pySplitHead
  rw [contains_eq_false_iff]
  intro y hy
  have hp := List.mem_takeWhile_imp hy
  simpa using hp

theorem upper_of_clean_fixed (x : String) (h1 : pyUpper x ≠ "")
    (h2 : pyStrip (pyUpper x) = pyUpper x) (hc : pyContainsChar x '_' = false) :
    get_part_prefix (pyUpper x) = some (pyUpper x) := by
  have hcu : pyContainsChar (pyUpper x) '_' = false := by
    unfold pyContainsChar at hc ⊢
    unfold pyUpper
    rw [contains_eq_false_iff]
    intro y hy
    rw [show (String.mk (List.map Char.toUpper x.data)).data
      = List.map Char.toUpper x.data from rfl] at hy
    rw [List.mem_map] at hy
    obtain ⟨a, ha, rfl⟩ := hy
    exact toUpper_ne_underscore ((contains_eq_false_iff _ _).mp hc a ha)
  unfold get_part_prefix
  rw [if_neg h1, h2, hcu]
  rw [if_neg (by simp)]
  rw [pyUpper_idem]

theorem fold_letters_ge_one : ∀ l : List Char, l ≠ [] → (∀ c ∈ l, asciiAlpha c = true) →
    ∀ r : Int, 0 ≤ r →
    1 ≤ l.foldl (fun result char => result * 26 + (((Char.toUpper char).toNat : Int) - 65 + 1)) r
  | [], h, _, _, _ => absurd rfl h
  | c :: rest, _, hall, r, hr => by
    have hc : asciiAlpha c = true := hall c (List.mem_cons_self c rest)
    have hrange := toUpper_range_of_alpha (c := c) (by simpa [asciiAlpha] using hc)
    rw [List.foldl_cons]
    have hr1 : 1 ≤ r * 26 + (((Char.toUpper c).toNat : Int) - 65 + 1) := by
      have h26 : 0 ≤ r * 26 := by positivity
      omega
    cases rest with
    | nil => simpa using hr1
    | cons d rest' =>
      exact fold_letters_ge_one (d :: rest') (by simp)
        (fun x hx => hall x (List.mem_cons_of_mem c hx)) _ (by omega)

/-- C2: for every identifier and ordered label list, `get_warehouse_type`
trims and uppercases the identifier and returns the first label in
caller order whose uppercased form is a prefix of it; it returns `none`
exactly when the identifier is the empty string or no label matches;
for labels `["L", "LL"]` and identifier `"LL123"` the result is `"L"`. -/
theorem C2_classify_first_match (part_number : String) (row_labels : List String) :
    get_warehouse_type part_number row_labels
      = (if part_number = "" then none
        else classifyFirst (pyUpper (pyStrip part_number)) row_labels)
    ∧ (get_warehouse_type part_number row_labels = none
      ↔ part_number = "" ∨ ∀ label ∈ row_labels,
          pyStartsWith (pyUpper (pyStrip part_number)) (pyUpper label) = false)
    ∧ get_warehouse_type "LL123" ["L", "LL"] = some "L" := by
  refine ⟨?_, ?_, by decide⟩
  · by_cases hp : part_number = ""
    · simp [get_warehouse_type, hp]
    · rw [get_warehouse_type, if_neg hp, if_neg hp, find?_eq_classifyFirst]
  · by_cases hp : part_number = ""
    · simp [get_warehouse_type, hp]
    · rw [get_warehouse_type, if_neg hp]
      simp [List.find?_eq_none, hp]

theorem C2_witness : get_warehouse_type "LL123" ["L", "LL"] = some "L" :=
  (C2_classify_first_match "LL123" ["L", "LL"]).2.2

/-- C10 counterexample: for the identifier `"X"` and the label list
`[""]`, the classifier does return the empty label (`some ""`), but a
row carrying that identifier is NOT categorized under the empty label:
the Python truthiness guard `if wh_type:` treats `""` as no match, so
aggregation skips the row and the aggregate stays empty — refuting
"such rows are categorized under the empty label rather than
skipped". -/
theorem C10_counterexample :
    get_warehouse_type "X" [""] = some ""
    ∧ process_file ⟨"A", "B", "C", ""⟩ [""] [[some "V", some "1", some "X"]] = [] := by
  refine ⟨by decide, by decide⟩

/-- C10 amended: an empty-string label matches every identifier in
classification: for every non-empty identifier (whitespace-only
included) and every label list containing `""`, `get_warehouse_type`
returns some label — the first one in caller order whose uppercased
form is a prefix of the trimmed, uppercased identifier, at latest the
first empty label.  But a row whose identifier classifies under the
empty label is nevertheless skipped by aggregation, not categorized
under it: the `if wh_type:` truthiness guard drops it. -/
theorem C10_empty_label_match_skipped (part_number : String) (row_labels : List String)
    (h1 : part_number ≠ "") (h2 : "" ∈ row_labels) :
    (get_warehouse_type part_number row_labels).isSome = true
    ∧ get_warehouse_type part_number row_labels
      = classifyFirst (pyUpper (pyStrip part_number)) row_labels
    ∧ ∀ (vc sc pc : Int) (acc : Agg) (row : List (Option String)) (vendor status : String),
        resolve_row vc sc pc row = some (vendor, status, part_number)
        → get_warehouse_type part_number row_labels = some ""
        → process_row vc sc pc row_labels acc row = acc := by
  refine ⟨?_, ?_, ?_⟩
  · rw [get_warehouse_type, if_neg h1]
    rw [List.find?_isSome]
    refine ⟨"", h2, ?_⟩
    rw [show pyUpper "" = "" from by decide]
    unfold pyStartsWith
    rw [show ("" : String).data = ([] : List Char) from by decide]
    exact List.isPrefixOf_nil_left
  · rw [get_warehouse_type, if_neg h1, find?_eq_classifyFirst]
  · intro vc sc pc acc row vendor status hres hcls
    have hred : process_row vc sc pc row_labels acc row
        = (match get_warehouse_type part_number row_labels with
          | some wh_type =>
            if wh_type = "" then acc
            else
              match get_part_prefix part_number with
              | some pre =>
                if pre = "" then acc
                else aggAdd (vendor, status) wh_type pre acc
              | none => acc
          | none => acc) := by
      unfold process_row
      rw [hres]
    rw [hred, hcls]
    show (if ("" : String) = "" then acc
      else
        match get_part_prefix part_number with
        | some pre =>
          if pre = "" then acc
          else aggAdd (vendor, status) "" pre acc
        | none => acc) = acc
    rw [if_pos rfl]

theorem C10_witness :
    (get_warehouse_type "X" ["Y", ""]).isSome = true
    ∧ process_row 1 2 3 ["Y", ""] [] [some "V", some "1", some "X"] = [] :=
  ⟨(C10_empty_label_match_skipped "X" ["Y", ""] (by decide) (by decide)).1,
    (C10_empty_label_match_skipped "X" ["Y", ""] (by decide) (by decide)).2.2
      1 2 3 [] [some "V", some "1", some "X"] "V" "1" (by decide) (by decide)⟩

/-- C3 counterexample: the claim says `get_part_prefix` returns `none`
exactly when the identifier is empty after trimming, but for the
whitespace-only identifier `" "` — empty after trimming — the code
returns `some ""`, not `none`. -/
theorem C3_counterexample :
    pyStrip " " = "" ∧ get_part_prefix " " = some "" ∧ get_part_prefix " " ≠ none := by
  refine ⟨by decide, by decide, by decide⟩

/-- C3 amended: `get_part_prefix` returns `none` exactly when the
identifier is the empty string before trimming; otherwise, when the
trimmed identifier contains an underscore it returns the substring
before the first underscore, uppercased, and otherwise the whole
trimmed identifier, uppercased (possibly `""` for whitespace-only
input). -/
theorem C3_extract_token (part_number : String) :
    ( get_part_prefix part_number = none ↔ part_number = "")
    ∧ (part_number ≠ "" → pyContainsChar (pyStrip part_number) '_' = true →
        get_part_prefix part_number
          = some (pyUpper (pySplitHead (pyStrip part_number) '_')))
    ∧ (part_number ≠ "" → pyContainsChar (pyStrip part_number) '_' = false →
        get_part_prefix part_number = some (pyUpper (pyStrip part_number))) := by
  refine ⟨?_, ?_, ?_⟩
  · by_cases hp : part_number = ""
    · simp [ get_part_prefix, hp]
    · unfold get_part_prefix
      rw [if_neg hp]
      by_cases hc : pyContainsChar (pyStrip part_number) '_' = true
      · simp [hc, hp]
      · simp [hc, hp]
  · intro hp hc
    unfold get_part_prefix
    rw [if_neg hp, hc, if_pos rfl]
  · intro hp hc
    unfold get_part_prefix
    rw [if_neg hp, hc, if_neg Bool.false_ne_true]

theorem C3_witness :
    get_part_prefix "a_b" = some (pyUpper (pySplitHead (pyStrip "a_b") '_'))
    ∧ pyUpper (pySplitHead (pyStrip "a_b") '_') = "A" :=
  ⟨(C3_extract_token "a_b").2.1 (by decide) (by decide), by decide⟩

/-- C9 counterexample: `get_part_prefix` is not idempotent on its own
output: `"_A"` yields the token `""`, on which re-application yields
`none`; `"AB _1"` yields `"AB "` (trailing space kept), on which
re-application yields `"AB"`, a different token. -/
theorem C9_counterexample :
    get_part_prefix "_A" = some "" ∧ get_part_prefix "" = none
    ∧ get_part_prefix "AB _1" = some "AB " ∧ get_part_prefix "AB " = some "AB" := by
  refine ⟨by decide, by decide, by decide, by decide⟩

/-- C9 amended: `get_part_prefix` is idempotent on every output token
that is non-empty and free of surrounding whitespace: if it returns
`some t` with `t ≠ ""` and `t` equal to its own trim, then
re-application to `t` returns `some t` again. -/
theorem C9_extract_token_idem (s t : String) (h : get_part_prefix s = some t)
    (h1 : t ≠ "") (h2 : pyStrip t = t) : get_part_prefix t = some t := by
  by_cases hs : s = ""
  · rw [show get_part_prefix s = none by simp [ get_part_prefix, hs]] at h
    exact Option.noConfusion h
  · unfold get_part_prefix at h
    rw [if_neg hs] at h
    by_cases hc : pyContainsChar (pyStrip s) '_' = true
    · rw [hc, if_pos rfl] at h
      have ht := Option.some.inj h
      rw [← ht] at h1 h2 ⊢
      exact upper_of_clean_fixed _ h1 h2 (splitHead_free (pyStrip s) '_')
    · rw [if_neg hc] at h
      have ht := Option.some.inj h
      rw [← ht] at h1 h2 ⊢
      have hcf : pyContainsChar (pyStrip s) '_' = false := by
        simpa using hc
      exact upper_of_clean_fixed _ h1 h2 hcf

theorem C9_witness : get_part_prefix "AB" = some "AB" :=
  C9_extract_token_idem "ab_1" "AB" (by decide) (by decide) (by decide)

/-- C5: for every row source and label list, when the mapping's vendor,
status or part-number column entry is empty, `process_file` returns the
empty aggregate, for every row list alike — it does not depend on the
rows and raises nothing. -/
theorem C5_unconfigured_empty (mapping : Mapping) (row_labels : List String)
    (rows : List (List (Option String)))
    (h : mapping.vendorColumn = "" ∨ mapping.statusColumn = "" ∨ mapping.partNumberColumn = "") :
    process_file mapping row_labels rows = []
    ∧ ∀ rows', process_file mapping row_labels rows = process_file mapping row_labels rows' := by
  have he : ∀ rs : List (List (Option String)), process_file mapping row_labels rs = [] := by
    intro rs
    unfold process_file
    rw [if_pos h]
  exact ⟨he rows, fun rows' => by rw [he rows, he rows']⟩

theorem C5_witness : process_file ⟨"", "B", "C", ""⟩ ["LL"] [[some "V", some "1", some "LL_1"]] = [] :=
  (C5_unconfigured_empty ⟨"", "B", "C", ""⟩ ["LL"] [[some "V", some "1", some "LL_1"]]
    (Or.inl rfl)).1

/-- C6 counterexample: the claim says `column_letter_to_index` fails
with an error for an empty or non-alphabetic input, but the code
returns a plain number on both: `0` for `""`, and for `"A1"` the value
`11` — colliding with the valid column `"K"`. -/
theorem C6_counterexample :
    column_letter_to_index "" = 0
    ∧ column_letter_to_index "A1" = 11
    ∧ column_letter_to_index "K" = 11 := by
  refine ⟨by decide, by decide, by decide⟩

/-- C6 amended: `column_letter_to_index` never fails: it returns a
plain integer for every input — at least `1` on every non-empty
all-ASCII-alphabetic input, `0` on the empty string, and an ordinary
base-26 accumulation (here `11`, the index of column `"K"`) on an
input with a non-alphabetic character. -/
theorem C6_no_error (letter : String) (h1 : letter ≠ "")
    (h2 : ∀ c ∈ letter.data, asciiAlpha c = true) :
    1 ≤ column_letter_to_index letter
    ∧ column_letter_to_index "" = 0
    ∧ column_letter_to_index "A1" = column_letter_to_index "K" := by
  refine ⟨?_, by decide, by decide⟩
  have hd : letter.data ≠ [] := by
    intro hl
    apply h1
    have he : letter = String.mk letter.data := rfl
    rw [hl] at he
    rw [he]
  exact fold_letters_ge_one letter.data hd h2 0 (le_refl 0)

theorem C6_witness : 1 ≤ column_letter_to_index "Ab" :=
  (C6_no_error "Ab" (by decide) (by decide)).1

/-- C4: aggregation counts distinct tokens, not occurrences: appending
a duplicate of any row to any row sequence changes nothing, and for a
concrete duplicated row the token-set size at its (vendor, status,
category) cell is 1, not 2 — inserting a present token is a no-op. -/
theorem C4_duplicate_row (mapping : Mapping) (row_labels : List String)
    (rows : List (List (Option String))) (row : List (Option String)) :
    process_file mapping row_labels (rows ++ [row, row])
      = process_file mapping row_labels (rows ++ [row])
    ∧ ((dictGet? "LL" ((dictGet? ("V1", "1")
          (process_file ⟨"A", "B", "C", ""⟩ ["LL"]
            [[some "V1", some "1", some "LL_100"],
              [some "V1", some "1", some "LL_100"]])).getD [])).getD []).length = 1 := by
  refine ⟨?_, by decide⟩
  unfold process_file
  by_cases h : mapping.vendorColumn = "" ∨ mapping.statusColumn = ""
      ∨ mapping.partNumberColumn = ""
  · rw [if_pos h, if_pos h]
  · rw [if_neg h, if_neg h, List.foldl_append, List.foldl_append,
      List.foldl_cons, List.foldl_cons, List.foldl_cons]
    simp only [List.foldl_nil]
    exact process_row_idem _ _ _ row_labels _ row

/-- C8: a data row shorter than a required column offset is skipped,
not a crash: under any mapping whose vendor, status or part-number
column index exceeds the row's length, that row contributes nothing to
the aggregate and processing continues with the remaining rows. -/
theorem C8_short_row_skipped (mapping : Mapping) (row_labels : List String)
    (rows1 rows2 : List (List (Option String))) (row : List (Option String))
    (h : (row.length : Int) < column_letter_to_index mapping.vendorColumn
      ∨ (row.length : Int) < column_letter_to_index mapping.statusColumn
      ∨ (row.length : Int) < column_letter_to_index mapping.partNumberColumn) :
    process_file mapping row_labels (rows1 ++ row :: rows2)
      = process_file mapping row_labels (rows1 ++ rows2) := by
  unfold process_file
  by_cases hm : mapping.vendorColumn = "" ∨ mapping.statusColumn = ""
      ∨ mapping.partNumberColumn = ""
  · rw [if_pos hm, if_pos hm]
  · rw [if_neg hm, if_neg hm, List.foldl_append, List.foldl_append, List.foldl_cons]
    have hskip := process_row_of_resolve_none
      (column_letter_to_index mapping.vendorColumn)
      (column_letter_to_index mapping.statusColumn)
      (column_letter_to_index mapping.partNumberColumn) row_labels
      (List.foldl (process_row (column_letter_to_index mapping.vendorColumn)
        (column_letter_to_index mapping.statusColumn)
        (column_letter_to_index mapping.partNumberColumn) row_labels) [] rows1) row
      (resolve_row_oob _ _ _ row h)
    rw [hskip]

theorem C8_witness :
    process_file ⟨"E", "A", "B", ""⟩ ["LL"] ([] ++ [some "x"] :: [])
      = process_file ⟨"E", "A", "B", ""⟩ ["LL"] ([] ++ [])
    ∧ process_file ⟨"E", "A", "B", ""⟩ ["LL"] ([] ++ []) = [] :=
  ⟨C8_short_row_skipped ⟨"E", "A", "B", ""⟩ ["LL"] [] [] [some "x"]
    (Or.inl (by decide)), by decide⟩

/-- C1: the summary cell at the data row of `label` and the column of
filter `f` holds the count
`len(aggregates[f.sourceId].get((f.vendor, f.status), emptyDict).get(label, emptySet))`,
and is `0` whenever the (vendor, status) key or the label is absent —
absence never raises an error. -/
theorem C1_summary_cell_value (processed_data : ProcessedData) (row_labels : List String)
    (column_filters : List ColumnFilter) (i j : Nat) (label : String) (f : ColumnFilter)
    (hi : row_labels.get? i = some label) (hj : column_filters.get? j = some f) :
    create_summary_grid row_labels column_filters processed_data (i + 2) (j + 2)
      = some (CellValue.n (summary_cell processed_data f label))
    ∧ summary_cell processed_data f label
      = ((dictGet? label ((dictGet? (f.vendor_name, f.status_value)
          ((dictGet? f.source_file_id processed_data).getD [])).getD [])).getD []).length
    ∧ (dictGet? (f.vendor_name, f.status_value)
          ((dictGet? f.source_file_id processed_data).getD []) = none
        → summary_cell processed_data f label = 0)
    ∧ (dictGet? label ((dictGet? (f.vendor_name, f.status_value)
          ((dictGet? f.source_file_id processed_data).getD [])).getD []) = none
        → summary_cell processed_data f label = 0) := by
  refine ⟨grid_data_cell row_labels column_filters processed_data i j label f hi hj,
    ?_, ?_, ?_⟩
  · unfold summary_cell
    cases h1 : dictGet? (f.vendor_name, f.status_value)
        ((dictGet? f.source_file_id processed_data).getD []) with
    | none => rfl
    | some by_label =>
      show (match dictGet? label by_label with
        | some toks => toks.length
        | none => 0)
        = ((dictGet? label by_label).getD []).length
      cases h2 : dictGet? label by_label with
      | none => rfl
      | some toks => rfl
  · intro h1
    unfold summary_cell
    rw [h1]
  · intro h2
    unfold summary_cell
    cases h1 : dictGet? (f.vendor_name, f.status_value)
        ((dictGet? f.source_file_id processed_data).getD []) with
    | none => rfl
    | some by_label =>
      rw [h1] at h2
      show (match dictGet? label by_label with
        | some toks => toks.length
        | none => 0) = 0
      rw [show dictGet? label by_label = none from h2]

theorem C1_witness :
    create_summary_grid ["LL"] [⟨"f1", "V", "1", "c", false⟩]
        [("f1", [(("V", "1"), [("LL", ["A", "B"])])])] (0 + 2) (0 + 2)
      = some (CellValue.n (summary_cell [("f1", [(("V", "1"), [("LL", ["A", "B"])])])]
          ⟨"f1", "V", "1", "c", false⟩ "LL"))
    ∧ summary_cell [("f1", [(("V", "1"), [("LL", ["A", "B"])])])]
        ⟨"f1", "V", "1", "c", false⟩ "LL" = 2 :=
  ⟨(C1_summary_cell_value [("f1", [(("V", "1"), [("LL", ["A", "B"])])])] ["LL"]
      [⟨"f1", "V", "1", "c", false⟩] 0 0 "LL" ⟨"f1", "V", "1", "c", false⟩ rfl rfl).1,
    by decide⟩

/-- C7: the TOTAL-row cell of each filter column is the structural
formula `=SUM` over exactly that column's data-row range (rows 2
through `len(labels) + 1`) — not a numeric literal — and the value
this formula denotes equals the arithmetic sum of that column's
data-row cell values. -/
theorem C7_total_row (row_labels : List String) (column_filters : List ColumnFilter)
    (processed_data : ProcessedData) (j : Nat) (f : ColumnFilter)
    (hj : column_filters.get? j = some f) :
    create_summary_grid row_labels column_filters processed_data
        (row_labels.length + 2) (j + 2)
      = some (CellValue.formulaSum (j + 2) 2 (row_labels.length + 1))
    ∧ (∀ v : Nat, create_summary_grid row_labels column_filters processed_data
        (row_labels.length + 2) (j + 2) ≠ some (CellValue.n v))
    ∧ sumFormulaValue (create_summary_grid row_labels column_filters processed_data)
        (j + 2) 2 (row_labels.length + 1)
      = (row_labels.map (fun label => summary_cell processed_data f label)).sum := by
  have hjl : j < column_filters.length := by
    rcases List.get?_eq_some.mp hj with ⟨hl, _⟩
    exact hl
  have hcell : create_summary_grid row_labels column_filters processed_data
      (row_labels.length + 2) (j + 2)
      = some (CellValue.formulaSum (j + 2) 2 (row_labels.length + 1)) := by
    unfold create_summary_grid
    rw [if_neg (by omega), if_neg (by omega), if_pos rfl, if_neg (by omega),
      if_pos ⟨by omega, by omega⟩]
  refine ⟨hcell, ?_, ?_⟩
  · intro v hv
    rw [hcell] at hv
    exact CellValue.noConfusion (Option.some.inj hv)
  · unfold sumFormulaValue
    rw [show row_labels.length + 1 + 1 - 2 = row_labels.length from by omega]
    apply congrArg List.sum
    apply List.ext
    intro k
    rw [List.get?_map, List.get?_map]
    by_cases hk : k < row_labels.length
    · rw [List.get?_range hk, List.get?_eq_get hk]
      have hgc := grid_data_cell row_labels column_filters processed_data k j
        (row_labels.get ⟨k, hk⟩) f (List.get?_eq_get hk) hj
      simp only [Option.map_some']
      rw [show 2 + k = k + 2 from by omega, hgc]
      rfl
    · rw [List.get?_eq_none.mpr (by simpa using hk),
        List.get?_eq_none.mpr (by omega)]
      rfl

theorem C7_witness :
    sumFormulaValue (create_summary_grid ["LL", "LM"] [⟨"f1", "V", "1", "c", false⟩]
        [("f1", [(("V", "1"), [("LL", ["A", "B"])])])]) (0 + 2) 2 (["LL", "LM"].length + 1)
      = (["LL", "LM"].map (fun label =>
          summary_cell [("f1", [(("V", "1"), [("LL", ["A", "B"])])])]
            ⟨"f1", "V", "1", "c", false⟩ label)).sum
    ∧ (["LL", "LM"].map (fun label =>
          summary_cell [("f1", [(("V", "1"), [("LL", ["A", "B"])])])]
            ⟨"f1", "V", "1", "c", false⟩ label)).sum = 2 :=
  ⟨(C7_total_row ["LL", "LM"] [⟨"f1", "V", "1", "c", false⟩]
      [("f1", [(("V", "1"), [("LL", ["A", "B"])])])] 0
      ⟨"f1", "V", "1", "c", false⟩ rfl).2.2,
    by decide⟩
